import Mathlib

/-!
Verification of the bignumber-utils value layer against its specification.

The development shallowly embeds the library's source (src/index.ts, the
current generation exported in src/unnamed/part_005, and
src/validations/validations.ts) into Lean.  The arbitrary-precision decimal
engine (bignumber.js) is out of scope per the spec and is modelled as exact
extended rationals: a value is NaN, +Infinity, -Infinity, or a finite
rational.  Engine division is modelled exactly (the engine rounds quotients
to its configured precision; no claim below distinguishes the two because
every compared formula routes through the same division expression).
Conversion of a decimal to a native number is modelled as the identity on
the numeric value (the spec accepts precision loss beyond the native float
range; the claims below only evaluate it at exactly representable values).
-/

namespace BNU

/-- A JavaScript number: NaN, +Infinity, -Infinity, or a finite value.
Finite doubles are exact rationals, so the finite case carries a rational. -/
inductive JSNum where
  | nan : JSNum
  | posInf : JSNum
  | negInf : JSNum
  | fin : ℚ → JSNum
deriving DecidableEq

/-- Engine test isNaN. -/
def JSNum.isNaNB : JSNum → Bool
  | .nan => true
  | _ => false

/-- Engine test isFinite: true only for finite values (false for NaN and both
infinities). -/
def JSNum.isFiniteB : JSNum → Bool
  | .fin _ => true
  | _ => false

/-- Engine test isInteger: a finite value with no fractional component;
false for NaN and the infinities. -/
def JSNum.isIntegerB : JSNum → Bool
  | .fin q => decide (q.den = 1)
  | _ => false

/-- Engine comparison isLessThan: every comparison involving NaN is false;
-Infinity is below and +Infinity above every other value. -/
def JSNum.ltB : JSNum → JSNum → Bool
  | .nan, _ => false
  | _, .nan => false
  | .negInf, .negInf => false
  | .negInf, _ => true
  | _, .negInf => false
  | .posInf, _ => false
  | _, .posInf => true
  | .fin p, .fin q => decide (p < q)

/-- Engine comparison isGreaterThan. -/
def JSNum.gtB (a b : JSNum) : Bool := JSNum.ltB b a

/-- Engine comparison isLessThanOrEqualTo: false whenever NaN is involved. -/
def JSNum.leB : JSNum → JSNum → Bool
  | .nan, _ => false
  | _, .nan => false
  | .negInf, _ => true
  | _, .negInf => false
  | _, .posInf => true
  | .posInf, _ => false
  | .fin p, .fin q => decide (p ≤ q)

/-- Engine negation. -/
def JSNum.neg : JSNum → JSNum
  | .nan => .nan
  | .posInf => .negInf
  | .negInf => .posInf
  | .fin q => .fin (-q)

/-- Engine absolute value. -/
def JSNum.abs : JSNum → JSNum
  | .nan => .nan
  | .posInf => .posInf
  | .negInf => .posInf
  | .fin q => .fin |q|

/-- Engine addition: NaN is absorbing and opposite infinities give NaN. -/
def JSNum.add : JSNum → JSNum → JSNum
  | .nan, _ => .nan
  | _, .nan => .nan
  | .posInf, .negInf => .nan
  | .negInf, .posInf => .nan
  | .posInf, _ => .posInf
  | _, .posInf => .posInf
  | .negInf, _ => .negInf
  | _, .negInf => .negInf
  | .fin p, .fin q => .fin (p + q)

/-- Engine subtraction (minus), via addition of the negation, which agrees
with the engine: equal infinities subtract to NaN. -/
def JSNum.sub (a b : JSNum) : JSNum := a.add b.neg

/-- Engine multiplication: NaN is absorbing and an infinity times zero is
NaN, otherwise signs multiply. -/
def JSNum.mul : JSNum → JSNum → JSNum
  | .nan, _ => .nan
  | _, .nan => .nan
  | .posInf, .posInf => .posInf
  | .posInf, .negInf => .negInf
  | .negInf, .posInf => .negInf
  | .negInf, .negInf => .posInf
  | .posInf, .fin q => if q = 0 then .nan else if 0 < q then .posInf else .negInf
  | .fin q, .posInf => if q = 0 then .nan else if 0 < q then .posInf else .negInf
  | .negInf, .fin q => if q = 0 then .nan else if 0 < q then .negInf else .posInf
  | .fin q, .negInf => if q = 0 then .nan else if 0 < q then .negInf else .posInf
  | .fin p, .fin q => .fin (p * q)

/-- Engine division (dividedBy), modelled exactly on finite operands:
NaN absorbs, infinity over infinity and zero over zero are NaN, a nonzero
finite value over zero is a signed infinity, and a finite value over an
infinity is zero. -/
def JSNum.div : JSNum → JSNum → JSNum
  | .nan, _ => .nan
  | _, .nan => .nan
  | .posInf, .posInf => .nan
  | .posInf, .negInf => .nan
  | .negInf, .posInf => .nan
  | .negInf, .negInf => .nan
  | .posInf, .fin q => if 0 ≤ q then .posInf else .negInf
  | .negInf, .fin q => if 0 ≤ q then .negInf else .posInf
  | .fin _, .posInf => .fin 0
  | .fin _, .negInf => .fin 0
  | .fin p, .fin q =>
    if q = 0 then (if p = 0 then .nan else if 0 < p then .posInf else .negInf)
    else .fin (p / q)

/-- Digits of a nonempty all-digit character list, as a natural number. -/
def digitsToNat? (l : List Char) : Option ℕ :=
  if l ≠ [] ∧ l.all Char.isDigit then
    some (l.foldl (fun a c => a * 10 + (c.toNat - 48)) 0)
  else none

/-- Decimal-string grammar accepted by the model of the engine constructor:
an optional sign, then digits with at most one decimal point and at least
one digit overall (the engine also accepts exponent forms; the claims never
depend on those, and any string this model rejects that the engine would
accept only changes which strings construct, not any proved property). -/
def parseDecStr (s : String) : Option ℚ :=
  let cs := s.data
  let signAndRest : Bool × List Char :=
    match cs with
    | '-' :: t => (true, t)
    | '+' :: t => (false, t)
    | t => (false, t)
  let applySign : ℚ → ℚ := fun q => if signAndRest.1 then -q else q
  match signAndRest.2.splitOn '.' with
  | [ip] => (digitsToNat? ip).map (fun n => applySign n)
  | [ip, fp] =>
    if (ip ++ fp) ≠ [] ∧ (ip ++ fp).all Char.isDigit then
      match digitsToNat? (ip ++ fp) with
      | some n => some (applySign ((n : ℚ) / 10 ^ fp.length))
      | none => none
    else none
  | _ => none

/-- A JavaScript value handed to the library: a native number, a string, a
BigNumber instance, or anything else (objects, undefined, null, Sets, Maps,
symbols, arrays, ...), which the engine constructor turns into NaN or a
thrown error - both surfacing as the same INVALID_VALUE failure here. -/
inductive JSValue where
  | num : JSNum → JSValue
  | str : String → JSValue
  | big : JSNum → JSValue
  | other : JSValue
deriving DecidableEq

/-- The engine constructor BigNumber(value), with the isBigNumber passthrough
folded in (the source returns an existing instance unchanged). -/
def toBigNumberRaw : JSValue → JSNum
  | .num x => x
  | .str s =>
    match parseDecStr s with
    | some q => .fin q
    | none => .nan
  | .big b => b
  | .other => .nan

/-- Error kinds of the library (shared/errors). -/
inductive Err where
  | invalidValue : Err
  | invalidDecimalPlaces : Err
  | invalidRoundingMode : Err
  | invalidType : Err
  | invalidValuesArray : Err
  | negativeValueNotAllowed : Err
  | invalidBigNumberFormat : Err
deriving DecidableEq

/-- getBigNumber (src/unnamed/part_005 lines 50-64): pass an existing
instance through or construct one, then reject NaN results; every failure
path raises INVALID_VALUE. -/
def getBigNumber (value : JSValue) : Except Err JSNum :=
  let bn := toBigNumberRaw value
  if bn.isNaNB then .error .invalidValue else .ok bn

/-- validateDecimalPlaces (src/validations/validations.ts lines 15-24):
rejects values that are not of number type, compare below 0, or compare
above 100.  JavaScript comparison semantics apply, so NaN passes the range
checks. -/
def validateDecimalPlaces (decimalPlaces : JSValue) : Except Err Unit :=
  match decimalPlaces with
  | .num n =>
    if n.ltB (.fin 0) || n.gtB (.fin 100) then .error .invalidDecimalPlaces
    else .ok ()
  | _ => .error .invalidDecimalPlaces

/-- validatePositiveValue (src/validations/validations.ts lines 51-67):
with allowZero, rejects values below 0; without, rejects values at or below
0 (the source's omitted allowZero argument is falsy). -/
def validatePositiveValue (value : JSNum) (allowZero : Bool) : Except Err Unit :=
  if allowZero && value.ltB (.fin 0) then .error .negativeValueNotAllowed
  else if !allowZero && value.leB (.fin 0) then .error .negativeValueNotAllowed
  else .ok ()

/-- The nine rounding-mode names (shared/types). -/
inductive RoundingModeName where
  | ROUND_UP | ROUND_DOWN | ROUND_CEIL | ROUND_FLOOR | ROUND_HALF_UP
  | ROUND_HALF_DOWN | ROUND_HALF_EVEN | ROUND_HALF_CEIL | ROUND_HALF_FLOOR
deriving DecidableEq

/-- The three output types (shared/types IType). -/
inductive OutType where
  | string | number | bignumber
deriving DecidableEq

/-- A caller-supplied Partial IConfig: each field may be omitted. -/
structure ConfigArg where
  decimalPlaces : Option JSNum
  roundingMode : Option RoundingModeName
  type : Option OutType
deriving DecidableEq

/-- The empty configuration argument (every field omitted). -/
def ConfigArg.empty : ConfigArg := ⟨none, none, none⟩

/-- A fully resolved IConfig record. -/
structure Config where
  decimalPlaces : JSNum
  roundingMode : RoundingModeName
  type : OutType
deriving DecidableEq

/-- Modelled from the spec: the missing current-generation utils.ts helper
that detects the ceiling/floor rounding-mode names (the repository ships
only its benchmark, utils.bench.ts, which compares includes/regex/endsWith
implementations - all equivalent on the nine names). -/
def endsWithCeilOrFloor : RoundingModeName → Bool
  | .ROUND_CEIL => true
  | .ROUND_FLOOR => true
  | .ROUND_HALF_CEIL => true
  | .ROUND_HALF_FLOOR => true
  | _ => false

/-- Modelled from the spec: buildConfig of the missing current-generation
utils.ts (spec section 4.3; behavior pinned by utils.test-unit.ts): apply
the defaults decimalPlaces=2, roundingMode=ROUND_HALF_UP, type=number, force
decimalPlaces to 0 when the rounding mode is a ceiling/floor variant, then
validate the resulting decimal places. -/
def buildConfig (config : ConfigArg) : Except Err Config :=
  let rm := config.roundingMode.getD .ROUND_HALF_UP
  let dp := if endsWithCeilOrFloor rm then JSNum.fin 0
            else config.decimalPlaces.getD (.fin 2)
  match validateDecimalPlaces (.num dp) with
  | .error e => .error e
  | .ok _ => .ok ⟨dp, rm, config.type.getD .number⟩

/-- The integer selected when rounding a scaled rational with a given mode:
floor-based with explicit tie handling for the half modes. -/
def chooseInt (y : ℚ) (rm : RoundingModeName) : ℤ :=
  let fl := Int.floor y
  let f := y - (fl : ℚ)
  match rm with
  | .ROUND_UP => if 0 ≤ y then Int.ceil y else fl
  | .ROUND_DOWN => if 0 ≤ y then fl else Int.ceil y
  | .ROUND_CEIL => Int.ceil y
  | .ROUND_FLOOR => fl
  | .ROUND_HALF_UP =>
    if 1 / 2 < f then fl + 1 else if f < 1 / 2 then fl
    else if 0 ≤ y then fl + 1 else fl
  | .ROUND_HALF_DOWN =>
    if 1 / 2 < f then fl + 1 else if f < 1 / 2 then fl
    else if 0 ≤ y then fl else fl + 1
  | .ROUND_HALF_EVEN =>
    if 1 / 2 < f then fl + 1 else if f < 1 / 2 then fl
    else if fl % 2 = 0 then fl else fl + 1
  | .ROUND_HALF_CEIL =>
    if 1 / 2 < f then fl + 1 else if f < 1 / 2 then fl else fl + 1
  | .ROUND_HALF_FLOOR =>
    if 1 / 2 < f then fl + 1 else if f < 1 / 2 then fl else fl

/-- Round a rational to n decimal places with the given mode. -/
def applyRound (q : ℚ) (n : ℕ) (rm : RoundingModeName) : ℚ :=
  let s : ℚ := 10 ^ n
  ((chooseInt (q * s) rm : ℚ)) / s

/-- Modelled from the spec: roundBigNumber of the missing current-generation
utils.ts (behavior pinned by utils.test-unit.ts): delegate to the engine's
round-to-N-places-with-mode.  NaN and the infinities round to themselves.
A target that is not a nonnegative integer is outside the black-box engine
contract (the engine throws a raw range error there); no library path
reaches it because buildConfig validates first, and it is mapped to NaN. -/
def roundBigNumber (bn : JSNum) (dp : JSNum) (rm : RoundingModeName) : JSNum :=
  match bn, dp with
  | .fin q, .fin d =>
    if d.den = 1 ∧ 0 ≤ d.num then .fin (applyRound q d.num.toNat rm) else .nan
  | .fin _, _ => .nan
  | b, _ => b

/-- Left-padded base-10 rendering of a natural number to a given width. -/
def natDigitsPadded (m : ℕ) (width : ℕ) : String :=
  let s := toString m
  ("".pushn '0' (width - s.length)) ++ s

/-- Decimal rendering of a rational whose expansion terminates within 400
digits; other rationals fall back to a fraction rendering, which no
engine-producible value reaches (the engine only holds finite decimals). -/
def ratToDecimalString (q : ℚ) : String :=
  match (List.range 401).find? (fun k => (q * 10 ^ k).den == 1) with
  | some k =>
    let m := (q * 10 ^ k).num
    let sgn := if m < 0 then "-" else ""
    if k = 0 then sgn ++ toString m.natAbs
    else sgn ++ toString (m.natAbs / 10 ^ k) ++ "." ++ natDigitsPadded (m.natAbs % 10 ^ k) k
  | none => toString q.num ++ "/" ++ toString q.den

/-- Engine toString under the library's plain-notation configuration. -/
def bigNumToString : JSNum → String
  | .nan => "NaN"
  | .posInf => "Infinity"
  | .negInf => "-Infinity"
  | .fin q => ratToDecimalString q

/-- A processed output value: text, a native number, or a decimal. -/
inductive Output where
  | str : String → Output
  | num : JSNum → Output
  | big : JSNum → Output
deriving DecidableEq

/-- Modelled from the spec: convertBigNumberToType of the missing
current-generation utils.ts (behavior pinned by utils.test-unit.ts):
string gives the decimal's text, number its native-number value, bignumber
the decimal unchanged.  The INVALID_TYPE arm of the source is unreachable
here because the output-type enumeration is closed. -/
def convertBigNumberToType (bn : JSNum) (ty : OutType) : Output :=
  match ty with
  | .string => .str (bigNumToString bn)
  | .number => .num bn
  | .bignumber => .big bn

/-- processValue (src/unnamed/part_005 lines 77-89): resolve the
configuration, construct the canonical decimal, round it, convert it. -/
def processValue (value : JSValue) (configuration : ConfigArg) : Except Err Output :=
  match buildConfig configuration with
  | .error e => .error e
  | .ok config =>
    match getBigNumber value with
    | .error e => .error e
    | .ok bn0 =>
      .ok (convertBigNumberToType (roundBigNumber bn0 config.decimalPlaces config.roundingMode)
        config.type)

/-- isNumber (src/unnamed/part_005 lines 145-152): construction failures are
swallowed into false. -/
def isNumber (value : JSValue) : Bool :=
  match getBigNumber value with
  | .ok _ => true
  | .error _ => false

/-- isInteger (src/unnamed/part_005 lines 159-166). -/
def isInteger (value : JSValue) : Bool :=
  match getBigNumber value with
  | .ok bn => bn.isIntegerB
  | .error _ => false

/-- isFloat (src/unnamed/part_005 lines 173-180). -/
def isFloat (value : JSValue) : Bool :=
  match getBigNumber value with
  | .ok bn => !bn.isIntegerB
  | .error _ => false

/-- Engine BigNumber.sum over already-coerced operands: a left fold of
addition starting at the first operand (NaN poisons the total). -/
def sumValues : List JSNum → JSNum
  | [] => .fin 0
  | h :: t => t.foldl JSNum.add h

/-- Engine BigNumber.min over already-coerced operands: NaN poisons the
result, otherwise the smallest by decimal comparison. -/
def minValues : List JSNum → JSNum
  | [] => .nan
  | h :: t => t.foldl (fun a b =>
      if a.isNaNB || b.isNaNB then .nan else if b.ltB a then b else a) h

/-- Engine BigNumber.max over already-coerced operands. -/
def maxValues : List JSNum → JSNum
  | [] => .nan
  | h :: t => t.foldl (fun a b =>
      if a.isNaNB || b.isNaNB then .nan else if a.ltB b then b else a) h

/-- Sort direction accepted by sortBigNumbers. -/
inductive SortDirection where
  | asc | desc
deriving DecidableEq

/-- Modelled from the spec: sortBigNumbers of the missing current-generation
utils.ts (behavior pinned by utils.test-unit.ts lines 301-322): a comparator
returning -1, 0 or 1 from the engine comparisons. -/
def sortBigNumbers (dir : SortDirection) (a b : JSNum) : ℤ :=
  match dir with
  | .asc => if a.ltB b then -1 else if a.gtB b then 1 else 0
  | .desc => if a.gtB b then -1 else if a.ltB b then 1 else 0

/-- The total order backing the model of Array.prototype.sort with the
ascending comparator: NaN first (it never reaches a sort - construction
rejects it), then -Infinity, finite values by numeric order, +Infinity.
On NaN-free operands this coincides with sortBigNumbers asc being
nonpositive (lemma sortLe_eq_comparator below). -/
def sortLe : JSNum → JSNum → Bool
  | .nan, _ => true
  | _, .nan => false
  | .negInf, _ => true
  | _, .negInf => false
  | _, .posInf => true
  | .posInf, _ => false
  | .fin p, .fin q => decide (p ≤ q)

/-- Model of values.sort(sortBigNumbers('asc')): a stable sort consistent
with the ascending comparator. -/
def jsSortAsc (l : List JSNum) : List JSNum := l.mergeSort sortLe

/-- calculateSum (src/unnamed/part_005 lines 202-208).  The values argument
is a genuine array here, so validateValuesArray passes by construction. -/
def calculateSum (values : List JSValue) (config : ConfigArg) : Except Err Output :=
  processValue
    (if values.length > 0 then .big (sumValues (values.map toBigNumberRaw))
     else .num (.fin 0)) config

/-- calculateMin (src/unnamed/part_005 lines 222-228). -/
def calculateMin (values : List JSValue) (config : ConfigArg) : Except Err Output :=
  processValue
    (if values.length > 0 then .big (minValues (values.map toBigNumberRaw))
     else .num (.fin 0)) config

/-- calculateMax (src/unnamed/part_005 lines 242-248). -/
def calculateMax (values : List JSValue) (config : ConfigArg) : Except Err Output :=
  processValue
    (if values.length > 0 then .big (maxValues (values.map toBigNumberRaw))
     else .num (.fin 0)) config

/-- calculateMean (src/unnamed/part_005 lines 262-273). -/
def calculateMean (values : List JSValue) (config : ConfigArg) : Except Err Output :=
  if values.length > 0 then
    processValue
      (.big ((sumValues (values.map toBigNumberRaw)).div (.fin (values.length : ℚ)))) config
  else processValue (.num (.fin 0)) config

/-- calculateMedian (src/unnamed/part_005 lines 287-311): construct every
value (the first failure propagates, as in the source's map), sort the fresh
list ascendingly, pick the middle element for an odd count or average the
two middle elements for an even count, then process the result. -/
def calculateMedian (values : List JSValue) (config : ConfigArg) : Except Err Output :=
  if values.length > 0 then
    match values.mapM getBigNumber with
    | .error e => .error e
    | .ok bs =>
      let half := values.length / 2
      let bnValues := jsSortAsc bs
      let res := if values.length % 2 ≠ 0 then bnValues.getD half (.fin 0)
                 else ((bnValues.getD (half - 1) (.fin 0)).add (bnValues.getD half (.fin 0))).div
                   (.fin 2)
      processValue (.big res) config
  else processValue (.num (.fin 0)) config

/-- calculatePercentageChange (src/unnamed/part_005 lines 337-371):
construct both values, require the old value positive, then branch on the
direction of the change, clamping any decrease to a nonpositive new value
at -100. -/
def calculatePercentageChange (oldValue newValue : JSValue) (config : ConfigArg) :
    Except Err Output :=
  match getBigNumber oldValue with
  | .error e => .error e
  | .ok oldValueBN =>
    match getBigNumber newValue with
    | .error e => .error e
    | .ok newValueBN =>
      match validatePositiveValue oldValueBN false with
      | .error e => .error e
      | .ok _ =>
        let change :=
          if newValueBN.gtB oldValueBN then
            ((newValueBN.sub oldValueBN).div oldValueBN).mul (.fin 100)
          else if oldValueBN.gtB newValueBN then
            if newValueBN.gtB (.fin 0) then
              (((oldValueBN.sub newValueBN).div oldValueBN).mul (.fin 100)).neg
            else .fin (-100)
          else .fin 0
        processValue (.big change) config

/-- adjustByPercentage (src/unnamed/part_005 lines 387-421): construct both
values, require the value positive, then branch on the sign of the
percentage, clamping any decrease of 100% or more at 0. -/
def adjustByPercentage (value percentage : JSValue) (config : ConfigArg) :
    Except Err Output :=
  match getBigNumber value with
  | .error e => .error e
  | .ok valueBN =>
    match getBigNumber percentage with
    | .error e => .error e
    | .ok percentageBN =>
      match validatePositiveValue valueBN false with
      | .error e => .error e
      | .ok _ =>
        let adjusted :=
          if percentageBN.gtB (.fin 0) then
            ((percentageBN.div (.fin 100)).add (.fin 1)).mul valueBN
          else if percentageBN.ltB (.fin 0) then
            if percentageBN.gtB (.fin (-100)) then
              ((((percentageBN.mul (.fin (-1))).div (.fin 100)).sub (.fin 1)).mul valueBN).mul
                (.fin (-1))
            else .fin 0
          else valueBN
        processValue (.big adjusted) config

/-- calculateWeightedEntry (src/unnamed/part_005 lines 531-556): for a
nonempty trade list, sum price-times-amount over the trades (construction
of a price propagates its failure; amounts are engine-coerced operands)
and divide by the total amount; an empty list gives 0. -/
def calculateWeightedEntry (trades : List (JSValue × JSValue)) (config : ConfigArg) :
    Except Err Output :=
  if trades.length ≠ 0 then
    match trades.mapM (fun t => (getBigNumber t.1).map (fun b => b.mul (toBigNumberRaw t.2))) with
    | .error e => .error e
    | .ok priceTimesShares =>
      let totalShares := trades.foldl (fun acc t => acc.add (toBigNumberRaw t.2)) (JSNum.fin 0)
      processValue (.big ((sumValues priceTimesShares).div totalShares)) config
  else processValue (.num (.fin 0)) config

/-! ## Shared helper lemmas -/

/-- Processing the native number 0 under the default configuration yields
the native number 0: the default decimal places validate, 0 rounds to 0
under ROUND_HALF_UP, and the default output type is number. -/
theorem processValue_zero_default :
    processValue (.num (.fin 0)) ConfigArg.empty = .ok (.num (.fin 0)) := by
  have hval : validateDecimalPlaces (.num (.fin 2)) = .ok () := by
    simp [validateDecimalPlaces, JSNum.ltB, JSNum.gtB]
    try norm_num
  have hround : roundBigNumber (.fin 0) (.fin 2) .ROUND_HALF_UP = .fin 0 := by
    simp only [roundBigNumber, applyRound, chooseInt]
    norm_num
  simp [processValue, buildConfig, ConfigArg.empty, endsWithCeilOrFloor, hval,
    getBigNumber, toBigNumberRaw, JSNum.isNaNB, hround, convertBigNumberToType]

/-! ## Claim theorems -/

/-- Claim C9: getBigNumber accepts the non-finite inputs Infinity and
-Infinity (only NaN and unconstructible inputs are rejected), returning the
infinite canonical value, and isNumber reports them as numbers even though
neither is finite. -/
theorem getBigNumber_infinite_values :
    getBigNumber (.num .posInf) = .ok .posInf ∧
    getBigNumber (.num .negInf) = .ok .negInf ∧
    isNumber (.num .posInf) = true ∧
    isNumber (.num .negInf) = true ∧
    JSNum.isFiniteB .posInf = false ∧
    JSNum.isFiniteB .negInf = false :=
  ⟨rfl, rfl, rfl, rfl, rfl, rfl⟩

/-- Claim C8: canonical construction is idempotent - whenever getBigNumber
succeeds with value b, constructing again from that canonical value succeeds
and returns the same value. -/
theorem getBigNumber_idempotent (v : JSValue) (b : JSNum)
    (h : getBigNumber v = .ok b) : getBigNumber (.big b) = .ok b := by
  simp only [getBigNumber] at h ⊢
  split at h
  · exact absurd h (by simp)
  · next hna =>
    have hb : toBigNumberRaw v = b := by
      simpa using h
    rw [hb] at hna
    simp only [toBigNumberRaw]
    simp [hna]

/-- Witness for Claim C8 at the concrete input 1. -/
theorem getBigNumber_idempotent_witness :
    getBigNumber (.big (.fin 1)) = .ok (.fin 1) :=
  getBigNumber_idempotent (.num (.fin 1)) (.fin 1) rfl

/-- Claim C7: the predicates isNumber, isInteger and isFloat are total
Boolean functions; every construction failure becomes false in all three,
and on success isInteger reports a zero fractional component while isFloat
is its negation. -/
theorem predicate_helpers_spec (v : JSValue) :
    (∀ e : Err, getBigNumber v = .error e →
      isNumber v = false ∧ isInteger v = false ∧ isFloat v = false) ∧
    (∀ b : JSNum, getBigNumber v = .ok b →
      isNumber v = true ∧ isInteger v = b.isIntegerB ∧ isFloat v = !b.isIntegerB) := by
  constructor
  · intro e he
    simp [isNumber, isInteger, isFloat, he]
  · intro b hb
    simp [isNumber, isInteger, isFloat, hb]

/-- Witness for Claim C7: an unconstructible input (a plain object) gives
false three times, and the constructible input 1 classifies as an integer
and not a float. -/
theorem predicate_helpers_spec_witness :
    (isNumber .other = false ∧ isInteger .other = false ∧ isFloat .other = false) ∧
    (isNumber (.num (.fin 1)) = true ∧
      isInteger (.num (.fin 1)) = JSNum.isIntegerB (.fin 1) ∧
      isFloat (.num (.fin 1)) = !JSNum.isIntegerB (.fin 1)) :=
  ⟨(predicate_helpers_spec .other).1 .invalidValue rfl,
   (predicate_helpers_spec (.num (.fin 1))).2 (.fin 1) rfl⟩

/-- Claim C6 counterexample: validateDecimalPlaces accepts the non-integer
2.5 (the source checks only the number type and the 0-100 range, with no
integrality test), contradicting the claim that every non-integer fails. -/
theorem validateDecimalPlaces_accepts_noninteger :
    validateDecimalPlaces (.num (.fin (5 / 2))) = .ok () ∧ ((5 : ℚ) / 2).den ≠ 1 := by
  constructor
  · simp [validateDecimalPlaces, JSNum.ltB, JSNum.gtB]
    norm_num
  · norm_num [Rat.den]

/-- Claim C6 as amended: validateDecimalPlaces fails with
InvalidDecimalPlaces exactly when the input is not of number type, or
compares below 0 or above 100 under JavaScript comparison semantics (so
non-integers inside the range, and NaN, are accepted). -/
theorem validateDecimalPlaces_characterization (v : JSValue) :
    validateDecimalPlaces v = .error .invalidDecimalPlaces ↔
      ((∀ n : JSNum, v ≠ .num n) ∨
       ∃ n : JSNum, v = .num n ∧
         (n.ltB (.fin 0) = true ∨ n.gtB (.fin 100) = true)) := by
  cases v with
  | num n =>
    simp only [validateDecimalPlaces]
    rcases hc : (n.ltB (.fin 0) || n.gtB (.fin 100)) with _ | _
    · simp only [Bool.or_eq_false_iff] at hc
      simp [hc.1, hc.2]
    · simp only [Bool.or_eq_true] at hc
      simp [hc]
  | str s => simp [validateDecimalPlaces]
  | big b => simp [validateDecimalPlaces]
  | other => simp [validateDecimalPlaces]

/-- Claim C4: each aggregate calculation returns the processed value 0 on
the empty array under the default configuration, i.e. the native number 0,
instead of failing. -/
theorem empty_array_calculations :
    calculateSum [] ConfigArg.empty = .ok (.num (.fin 0)) ∧
    calculateMin [] ConfigArg.empty = .ok (.num (.fin 0)) ∧
    calculateMax [] ConfigArg.empty = .ok (.num (.fin 0)) ∧
    calculateMean [] ConfigArg.empty = .ok (.num (.fin 0)) ∧
    calculateMedian [] ConfigArg.empty = .ok (.num (.fin 0)) ∧
    calculateWeightedEntry [] ConfigArg.empty = .ok (.num (.fin 0)) := by
  refine ⟨?_, ?_, ?_, ?_, ?_, ?_⟩ <;>
    simp [calculateSum, calculateMin, calculateMax, calculateMean, calculateMedian,
      calculateWeightedEntry, processValue_zero_default]

/-- Claim C3: for the four ceiling/floor rounding-mode names the resolved
configuration has decimalPlaces 0 whatever decimal places the caller
supplies (the forced 0 always validates); for the five other modes the
supplied value is kept when it validates, and the default 2 is used when it
is omitted. -/
theorem buildConfig_decimal_places_policy (rm : RoundingModeName) (dp : JSNum) (ty : OutType) :
    ((rm = .ROUND_CEIL ∨ rm = .ROUND_FLOOR ∨ rm = .ROUND_HALF_CEIL ∨ rm = .ROUND_HALF_FLOOR) →
      buildConfig ⟨some dp, some rm, some ty⟩ = .ok ⟨.fin 0, rm, ty⟩) ∧
    ((rm = .ROUND_UP ∨ rm = .ROUND_DOWN ∨ rm = .ROUND_HALF_UP ∨ rm = .ROUND_HALF_DOWN ∨
        rm = .ROUND_HALF_EVEN) →
      (validateDecimalPlaces (.num dp) = .ok () →
        buildConfig ⟨some dp, some rm, some ty⟩ = .ok ⟨dp, rm, ty⟩) ∧
      buildConfig ⟨none, some rm, some ty⟩ = .ok ⟨.fin 2, rm, ty⟩) := by
  have hv0 : validateDecimalPlaces (.num (.fin 0)) = .ok () := by
    simp [validateDecimalPlaces, JSNum.ltB, JSNum.gtB]
    try norm_num
  have hv2 : validateDecimalPlaces (.num (.fin 2)) = .ok () := by
    simp [validateDecimalPlaces, JSNum.ltB, JSNum.gtB]
    try norm_num
  constructor
  · rintro (rfl | rfl | rfl | rfl) <;>
      simp [buildConfig, endsWithCeilOrFloor, hv0]
  · rintro (rfl | rfl | rfl | rfl | rfl) <;>
      exact ⟨fun hval => by simp [buildConfig, endsWithCeilOrFloor, hval],
        by simp [buildConfig, endsWithCeilOrFloor, hv2]⟩

/-- Witness for Claim C3: ROUND_CEIL forces the supplied 8 decimal places to
0, while ROUND_HALF_EVEN keeps them. -/
theorem buildConfig_decimal_places_policy_witness :
    buildConfig ⟨some (.fin 8), some .ROUND_CEIL, some .number⟩
        = .ok ⟨.fin 0, .ROUND_CEIL, .number⟩ ∧
    buildConfig ⟨some (.fin 8), some .ROUND_HALF_EVEN, some .number⟩
        = .ok ⟨.fin 8, .ROUND_HALF_EVEN, .number⟩ :=
  ⟨(buildConfig_decimal_places_policy .ROUND_CEIL (.fin 8) .number).1 (Or.inl rfl),
   ((buildConfig_decimal_places_policy .ROUND_HALF_EVEN (.fin 8) .number).2
      (Or.inr (Or.inr (Or.inr (Or.inr rfl))))).1 (by
        (simp [validateDecimalPlaces, JSNum.ltB, JSNum.gtB]; try norm_num))⟩

/-- Commutativity of the engine addition. -/
theorem JSNum.addComm (a b : JSNum) : a.add b = b.add a := by
  cases a <;> cases b <;> simp [JSNum.add, add_comm]

/-- Commutativity of the engine multiplication. -/
theorem JSNum.mulComm (a b : JSNum) : a.mul b = b.mul a := by
  cases a <;> cases b <;> simp [JSNum.mul, mul_comm]

/-- Spec-side formula of Claim C1, written from the claim's words:
(newValue - oldValue) / oldValue * 100 on an increase, the negation of
(oldValue - newValue) / oldValue * 100 on a decrease to a positive value,
exactly -100 on a decrease to a nonpositive value, and 0 when equal. -/
def specPercentageChange (oldB newB : JSNum) : JSNum :=
  if newB.gtB oldB then ((newB.sub oldB).div oldB).mul (.fin 100)
  else if oldB.gtB newB then
    if newB.gtB (.fin 0) then (((oldB.sub newB).div oldB).mul (.fin 100)).neg
    else .fin (-100)
  else .fin 0

/-- Claim C1: for constructible inputs, calculatePercentageChange fails with
NegativeValueNotAllowed exactly when the old value compares at or below 0,
and otherwise returns the spec formula processed through the value pipeline;
on finite inputs the formula is the expected exact rational. -/
theorem calculatePercentageChange_spec (oldValue newValue : JSValue) (cfg : ConfigArg)
    (oldB newB : JSNum) (hold : getBigNumber oldValue = .ok oldB)
    (hnew : getBigNumber newValue = .ok newB) :
    (oldB.leB (.fin 0) = true →
      calculatePercentageChange oldValue newValue cfg = .error .negativeValueNotAllowed) ∧
    (oldB.leB (.fin 0) = false →
      calculatePercentageChange oldValue newValue cfg
        = processValue (.big (specPercentageChange oldB newB)) cfg) ∧
    (∀ o n : ℚ, oldB = .fin o → newB = .fin n → 0 < o →
      specPercentageChange oldB newB
        = .fin (if o < n then (n - o) / o * 100
                else if n < o then (if 0 < n then -((o - n) / o * 100) else -100)
                else 0)) := by
  refine ⟨?_, ?_, ?_⟩
  · intro h
    simp [calculatePercentageChange, hold, hnew, validatePositiveValue, h]
  · intro h
    simp [calculatePercentageChange, hold, hnew, validatePositiveValue, h,
      specPercentageChange]
  · rintro o n rfl rfl ho
    have ho' : o ≠ 0 := ne_of_gt ho
    simp only [specPercentageChange, JSNum.gtB, JSNum.ltB, JSNum.sub, JSNum.neg,
      JSNum.add, JSNum.div, JSNum.mul, decide_eq_true_eq]
    rcases lt_trichotomy o n with hlt | heq | hgt
    · rw [if_pos hlt, if_pos hlt]
      simp [ho', ← sub_eq_add_neg]
    · subst heq
      simp
    · rw [if_neg (not_lt.mpr (le_of_lt hgt)), if_pos hgt, if_neg (not_lt.mpr (le_of_lt hgt)),
        if_pos hgt]
      by_cases hn : 0 < n
      · rw [if_pos hn, if_pos hn]
        simp [ho', ← sub_eq_add_neg]
      · rw [if_neg hn, if_neg hn]

/-- Witness for Claim C1 at the concrete inputs 100 and 150. -/
theorem calculatePercentageChange_spec_witness :
    calculatePercentageChange (.num (.fin 100)) (.num (.fin 150)) ConfigArg.empty
        = processValue (.big (specPercentageChange (.fin 100) (.fin 150))) ConfigArg.empty ∧
    specPercentageChange (.fin 100) (.fin 150)
        = .fin (if (100 : ℚ) < 150 then ((150 : ℚ) - 100) / 100 * 100
                else if (150 : ℚ) < 100 then (if (0 : ℚ) < 150 then -(((100 : ℚ) - 150) / 100 * 100) else -100)
                else 0) := by
  have h := calculatePercentageChange_spec (.num (.fin 100)) (.num (.fin 150))
    ConfigArg.empty (.fin 100) (.fin 150) rfl rfl
  refine ⟨h.2.1 (by simp [JSNum.leB]), h.2.2 100 150 rfl rfl (by norm_num)⟩

/-- Spec-side formula of Claim C2, written from the claim's words:
value * (1 + percentage/100) on a positive percentage,
value * (1 - |percentage|/100) on a negative percentage above -100,
exactly 0 at or below -100, and the unchanged value at 0. -/
def specAdjustByPercentage (valueBN percentageBN : JSNum) : JSNum :=
  if percentageBN.gtB (.fin 0) then
    valueBN.mul ((JSNum.fin 1).add (percentageBN.div (.fin 100)))
  else if percentageBN.ltB (.fin 0) then
    if percentageBN.gtB (.fin (-100)) then
      valueBN.mul ((JSNum.fin 1).sub ((percentageBN.abs).div (.fin 100)))
    else .fin 0
  else valueBN

/-- The adjustment computed by the source equals the spec formula for every
pair of engine values: the positive branch by commutativity, the negative
branch by the algebraic identity -((|p|/100 - 1) * v) = v * (1 - |p|/100),
carried through the sign rules for infinite values. -/
theorem adjust_formula_eq (vB pB : JSNum) :
    (if pB.gtB (.fin 0) then ((pB.div (.fin 100)).add (.fin 1)).mul vB
     else if pB.ltB (.fin 0) then
       if pB.gtB (.fin (-100)) then
         ((((pB.mul (.fin (-1))).div (.fin 100)).sub (.fin 1)).mul vB).mul (.fin (-1))
       else .fin 0
     else vB) = specAdjustByPercentage vB pB := by
  have hb1 : ((pB.div (.fin 100)).add (.fin 1)).mul vB
      = vB.mul ((JSNum.fin 1).add (pB.div (.fin 100))) := by
    rw [JSNum.mulComm, JSNum.addComm]
  unfold specAdjustByPercentage
  cases pB with
  | nan => simp [JSNum.gtB, JSNum.ltB]
  | posInf =>
    have hg : JSNum.gtB .posInf (.fin 0) = true := rfl
    simp only [hg, if_true]
    exact hb1
  | negInf =>
    have hg : JSNum.gtB .negInf (.fin 0) = false := rfl
    have hl : JSNum.ltB .negInf (.fin 0) = true := rfl
    have hg2 : JSNum.gtB .negInf (.fin (-100)) = false := rfl
    simp [hg, hl, hg2]
  | fin p =>
    rcases lt_trichotomy 0 p with hp | hp | hp
    · have hg : JSNum.gtB (.fin p) (.fin 0) = true := by
        simp [JSNum.gtB, JSNum.ltB, hp]
      simp only [hg, if_true]
      exact hb1
    · subst hp
      simp [JSNum.gtB, JSNum.ltB]
    · have hg : JSNum.gtB (.fin p) (.fin 0) = false := by
        simp [JSNum.gtB, JSNum.ltB]
        linarith
      have hl : JSNum.ltB (.fin p) (.fin 0) = true := by
        simp [JSNum.ltB, hp]
      by_cases h3 : (-100 : ℚ) < p
      · have hg3 : JSNum.gtB (.fin p) (.fin (-100)) = true := by
          simp [JSNum.gtB, JSNum.ltB, h3]
        simp only [hg, hl, hg3, Bool.false_eq_true, if_false, if_true]
        have hinner : ((JSNum.fin p).mul (.fin (-1))).div (.fin 100) = .fin (-p / 100) := by
          simp [JSNum.mul, JSNum.div]
          try norm_num
        have hsub : (JSNum.fin (-p / 100)).sub (.fin 1) = .fin (-p / 100 - 1) := by
          simp [JSNum.sub, JSNum.neg, JSNum.add, sub_eq_add_neg]
        have habs : JSNum.abs (.fin p) = .fin (-p) := by
          simp [JSNum.abs, abs_of_neg hp]
        have hspec : (JSNum.fin 1).sub ((JSNum.abs (.fin p)).div (.fin 100))
            = .fin (1 - -p / 100) := by
          rw [habs]
          simp [JSNum.sub, JSNum.neg, JSNum.add, JSNum.div, sub_eq_add_neg]
        have hneg1 : (-p / 100 - 1 : ℚ) < 0 := by
          have : (-p / 100 : ℚ) < 1 := by
            rw [div_lt_one (by norm_num)]
            linarith
          linarith
        have hpos1 : (0 : ℚ) < 1 - -p / 100 := by linarith
        rw [hinner, hsub, hspec]
        cases vB with
        | nan => simp [JSNum.mul]
        | posInf =>
          rw [JSNum.mulComm (JSNum.fin (-p / 100 - 1)) .posInf]
          simp only [JSNum.mul, if_neg (ne_of_gt hpos1), if_pos hpos1,
            if_neg (ne_of_lt hneg1), if_neg (not_lt.mpr (le_of_lt hneg1))]
          norm_num
        | negInf =>
          rw [JSNum.mulComm (JSNum.fin (-p / 100 - 1)) .negInf]
          simp only [JSNum.mul, if_neg (ne_of_gt hpos1), if_pos hpos1,
            if_neg (ne_of_lt hneg1), if_neg (not_lt.mpr (le_of_lt hneg1))]
          norm_num
        | fin q =>
          simp only [JSNum.mul, JSNum.fin.injEq]
          ring
      · have hg3 : JSNum.gtB (.fin p) (.fin (-100)) = false := by
          simp [JSNum.gtB, JSNum.ltB]
          linarith
        simp [hg, hl, hg3]

/-- Claim C2: for constructible inputs, adjustByPercentage fails with
NegativeValueNotAllowed exactly when the value compares at or below 0, and
otherwise returns the spec formula processed through the value pipeline. -/
theorem adjustByPercentage_spec (value percentage : JSValue) (cfg : ConfigArg)
    (vB pB : JSNum) (hv : getBigNumber value = .ok vB)
    (hp : getBigNumber percentage = .ok pB) :
    (vB.leB (.fin 0) = true →
      adjustByPercentage value percentage cfg = .error .negativeValueNotAllowed) ∧
    (vB.leB (.fin 0) = false →
      adjustByPercentage value percentage cfg
        = processValue (.big (specAdjustByPercentage vB pB)) cfg) := by
  constructor
  · intro h
    simp [adjustByPercentage, hv, hp, validatePositiveValue, h]
  · intro h
    simp only [adjustByPercentage, hv, hp, validatePositiveValue, h, Bool.false_and,
      Bool.not_false, Bool.true_and, Bool.false_eq_true, if_false]
    rw [adjust_formula_eq]

/-- Witness for Claim C2 at the concrete inputs 100 and -100 (the clamp
branch: a decrease of 100% gives the processed value 0). -/
theorem adjustByPercentage_spec_witness :
    adjustByPercentage (.num (.fin 100)) (.num (.fin (-100))) ConfigArg.empty
      = processValue (.big (specAdjustByPercentage (.fin 100) (.fin (-100)))) ConfigArg.empty :=
  (adjustByPercentage_spec (.num (.fin 100)) (.num (.fin (-100))) ConfigArg.empty
    (.fin 100) (.fin (-100)) rfl rfl).2 (by simp [JSNum.leB])

/-- The sort order is transitive. -/
theorem sortLe_trans (a b c : JSNum) (hab : sortLe a b = true) (hbc : sortLe b c = true) :
    sortLe a c = true := by
  cases a <;> cases b <;> cases c <;> simp_all [sortLe] <;> exact le_trans hab hbc

/-- The sort order is total. -/
theorem sortLe_total (a b : JSNum) : (sortLe a b || sortLe b a) = true := by
  cases a <;> cases b <;> simp [sortLe] <;> exact le_total _ _

/-- A pair in sort order is never strictly descending by the engine
comparison. -/
theorem sortLe_implies_not_gt (a b : JSNum) (h : sortLe a b = true) :
    JSNum.gtB a b = false := by
  cases a <;> cases b <;> simp_all [sortLe, JSNum.gtB, JSNum.ltB]

/-- On NaN-free operands (the only ones a sort ever sees, since construction
rejects NaN) the sort order is exactly the ascending comparator of
sortBigNumbers reporting nonpositive. -/
theorem sortLe_eq_comparator (a b : JSNum) (ha : a.isNaNB = false) (hb : b.isNaNB = false) :
    sortLe a b = decide (sortBigNumbers .asc a b ≤ 0) := by
  cases a <;> cases b <;>
    simp_all [sortLe, sortBigNumbers, JSNum.gtB, JSNum.ltB, JSNum.isNaNB]
  rename_i p q
  rcases lt_trichotomy p q with h | h | h
  · simp [h, le_of_lt h]
  · simp [h]
  · simp [h, not_lt.mpr (le_of_lt h), not_le.mpr h]

/-- Claim C5: on a nonempty array whose members all construct, the list the
median works on is an ascending (never strictly descending, by decimal
comparison) permutation of the constructed values, and the returned value is
the middle element for an odd count, or the two middle elements summed and
divided by 2 for an even count, processed through the value pipeline. -/
theorem calculateMedian_spec (values : List JSValue) (cfg : ConfigArg) (bs : List JSNum)
    (hne : values ≠ []) (hmap : values.mapM getBigNumber = .ok bs) :
    (jsSortAsc bs).Perm bs ∧
    List.Pairwise (fun a b => JSNum.gtB a b = false) (jsSortAsc bs) ∧
    calculateMedian values cfg =
      processValue
        (.big (if values.length % 2 ≠ 0 then (jsSortAsc bs).getD (values.length / 2) (.fin 0)
          else (((jsSortAsc bs).getD (values.length / 2 - 1) (.fin 0)).add
            ((jsSortAsc bs).getD (values.length / 2) (.fin 0))).div (.fin 2))) cfg := by
  refine ⟨List.mergeSort_perm bs sortLe, ?_, ?_⟩
  · exact (List.sorted_mergeSort (fun a b c => sortLe_trans a b c) sortLe_total bs).imp
      (fun h => sortLe_implies_not_gt _ _ h)
  · have hlen : values.length > 0 := by
      cases values with
      | nil => exact absurd rfl hne
      | cons h t => simp
    unfold calculateMedian
    rw [if_pos hlen, hmap]

/-- Witness for Claim C5 at the concrete even-count array [342, 654]. -/
theorem calculateMedian_spec_witness :
    (jsSortAsc [JSNum.fin 342, JSNum.fin 654]).Perm [JSNum.fin 342, JSNum.fin 654] ∧
    List.Pairwise (fun a b => JSNum.gtB a b = false) (jsSortAsc [JSNum.fin 342, JSNum.fin 654]) ∧
    calculateMedian [.num (.fin 342), .num (.fin 654)] ConfigArg.empty =
      processValue
        (.big ((((jsSortAsc [JSNum.fin 342, JSNum.fin 654]).getD 0 (.fin 0)).add
            ((jsSortAsc [JSNum.fin 342, JSNum.fin 654]).getD 1 (.fin 0))).div (.fin 2)))
        ConfigArg.empty := by
  have h := calculateMedian_spec [.num (.fin 342), .num (.fin 654)] ConfigArg.empty
    [JSNum.fin 342, JSNum.fin 654] (by simp) rfl
  simpa using h

/-- A store of JavaScript arrays: references are indices.  Used to make the
aliasing in calculateMedian observable - .map allocates a fresh array and
.sort mutates its receiver in place. -/
abbrev Heap := List (List JSValue)

/-- calculateMedian with the array store explicit (src/unnamed/part_005
lines 287-311): the caller's array lives at reference r; values.map
allocates a fresh array at the next reference, and the in-place sort writes
back to that fresh reference only.  Returns the output together with the
final store. -/
def calculateMedianHeap (h : Heap) (r : ℕ) (config : ConfigArg) :
    Except Err (Output × Heap) :=
  let values := h.getD r []
  if values.length > 0 then
    match values.mapM getBigNumber with
    | .error e => .error e
    | .ok bs =>
      let h1 := h ++ [bs.map JSValue.big]
      let sorted := jsSortAsc bs
      let h2 := h1.set h.length (sorted.map JSValue.big)
      let half := values.length / 2
      let res := if values.length % 2 ≠ 0 then sorted.getD half (.fin 0)
                 else ((sorted.getD (half - 1) (.fin 0)).add (sorted.getD half (.fin 0))).div
                   (.fin 2)
      match processValue (.big res) config with
      | .error e => .error e
      | .ok out => .ok (out, h2)
  else
    match processValue (.num (.fin 0)) config with
    | .error e => .error e
    | .ok out => .ok (out, h)

/-- Claim C10: calculateMedian does not mutate its argument - after a call
the caller's array holds the same elements in the same order, because the
sort operates on the freshly mapped copy; and the heap-level run returns the
same output as the plain function on the array's contents. -/
theorem calculateMedian_no_mutation (h : Heap) (r : ℕ) (cfg : ConfigArg) (out : Output)
    (hp : Heap) (hres : calculateMedianHeap h r cfg = .ok (out, hp)) :
    hp.getD r [] = h.getD r [] ∧ calculateMedian (h.getD r []) cfg = .ok out := by
  unfold calculateMedianHeap at hres
  by_cases hlen : (h.getD r []).length > 0
  · rw [if_pos hlen] at hres
    have hr : r < h.length := by
      by_contra hge
      rw [List.getD_eq_default _ _ (le_of_not_lt hge)] at hlen
      simp at hlen
    cases hm : (h.getD r []).mapM getBigNumber with
    | error e => rw [hm] at hres; exact absurd hres (by simp)
    | ok bs =>
      rw [hm] at hres
      dsimp only at hres
      cases hpv : processValue
          (.big (if (h.getD r []).length % 2 ≠ 0 then
            (jsSortAsc bs).getD ((h.getD r []).length / 2) (.fin 0)
          else (((jsSortAsc bs).getD ((h.getD r []).length / 2 - 1) (.fin 0)).add
            ((jsSortAsc bs).getD ((h.getD r []).length / 2) (.fin 0))).div (.fin 2))) cfg with
      | error e => rw [hpv] at hres; exact absurd hres (by simp)
      | ok o =>
        rw [hpv] at hres
        dsimp only at hres
        have hout : o = out ∧ ((h ++ [bs.map JSValue.big]).set h.length
            ((jsSortAsc bs).map JSValue.big)) = hp := by
          constructor <;> · injection hres with h1; injection h1
        constructor
        · rw [← hout.2]
          rw [List.getD_eq_getElem?_getD, List.getD_eq_getElem?_getD,
            List.getElem?_set_ne (by omega), List.getElem?_append]
          rw [if_pos hr]
        · unfold calculateMedian
          rw [if_pos hlen, hm]
          dsimp only
          rw [hpv, hout.1]
  · rw [if_neg hlen] at hres
    cases hpv : processValue (.num (.fin 0)) cfg with
    | error e => rw [hpv] at hres; exact absurd hres (by simp)
    | ok o =>
      rw [hpv] at hres
      dsimp only at hres
      have hout : o = out ∧ h = hp := by
        constructor <;> · injection hres with h1; injection h1
      refine ⟨by rw [← hout.2], ?_⟩
      unfold calculateMedian
      rw [if_neg hlen, hpv, hout.1]

/-- Witness for Claim C10 on the concrete one-array store holding [5]. -/
theorem calculateMedian_no_mutation_witness :
    ([[JSValue.num (.fin 5)], [JSValue.big (.fin 5)]] : Heap).getD 0 []
        = ([[JSValue.num (.fin 5)]] : Heap).getD 0 [] ∧
    calculateMedian (([[JSValue.num (.fin 5)]] : Heap).getD 0 []) ConfigArg.empty
        = .ok (.num (.fin 5)) := by
  have hpv : processValue (.big (.fin 5)) ConfigArg.empty = .ok (.num (.fin 5)) := by
    have hval : validateDecimalPlaces (.num (.fin 2)) = .ok () := by
      simp [validateDecimalPlaces, JSNum.ltB, JSNum.gtB]
      try norm_num
    have hround : roundBigNumber (.fin 5) (.fin 2) .ROUND_HALF_UP = .fin 5 := by
      have hd : ((2 : ℚ).den = 1 ∧ 0 ≤ (2 : ℚ).num) := by
        constructor
        · norm_num [Rat.den]
        · norm_num
      have hn2 : (2 : ℚ).num = 2 := by norm_num
      have hn : (2 : ℚ).num.toNat = 2 := by
        rw [hn2]
        rfl
      simp only [roundBigNumber, if_pos hd, hn, applyRound, chooseInt]
      have h500 : ((5 : ℚ) * 10 ^ (2 : ℕ)) = ((500 : ℤ) : ℚ) := by norm_num
      rw [h500, Int.floor_intCast]
      norm_num
    simp [processValue, buildConfig, ConfigArg.empty, endsWithCeilOrFloor, hval,
      getBigNumber, toBigNumberRaw, JSNum.isNaNB, hround, convertBigNumberToType]
  have hres : calculateMedianHeap [[JSValue.num (.fin 5)]] 0 ConfigArg.empty
      = .ok (.num (.fin 5), [[JSValue.num (.fin 5)], [JSValue.big (.fin 5)]]) := by
    simp only [calculateMedianHeap]
    simp [List.mapM, List.mapM.loop, getBigNumber, toBigNumberRaw, JSNum.isNaNB, jsSortAsc,
      List.mergeSort_singleton, hpv]
  exact calculateMedian_no_mutation [[JSValue.num (.fin 5)]] 0 ConfigArg.empty
    (.num (.fin 5)) [[JSValue.num (.fin 5)], [JSValue.big (.fin 5)]] hres

end BNU
